import Mathlib

/-!
Shallow embedding of the rsvp reading engine (kearnsw/rsvp).

The engine lives twice in the repository: in the terminal front-end
`src/bin/rsvp-tui.rs` and in the desktop front-end `src/main.rs`.  The
definitions below embed the terminal version (the richer of the two: it also
has the delete pipeline), plus the one place where the desktop front-end
differs in a claim-relevant way (its start-up rate guard).

Modelling conventions:
  * Machine integers (`usize`, `u32`) become `Nat`; the reading rates and
    indices involved stay far below any overflow boundary.
  * Wall-clock instants (`std::time::Instant`) and durations become `ℚ`
    (seconds); `Instant::now()` becomes an explicit `now : ℚ` argument on
    every operation that reads the clock.  Rust computes the inter-word
    delay in `f64`; the model computes it exactly in `ℚ`.
  * The filesystem is explicit state: the persisted `library.json` is the
    `fs_library` field and the `books/<id>.txt` blobs are the `fs_books`
    association list.  File writes are modelled as always succeeding (the
    code swallows write failures best-effort).
  * `shellexpand` (home-directory expansion of `~`) is modelled as the
    identity: the import file system is keyed by already-expanded paths.
  * UI-only state (modes, list selection, input cursor) is omitted; the
    status-message line and the import error line are kept because the
    engine's error reporting goes through them.
-/

namespace Rsvp

/-- Book entry of the persisted library (`struct Book` in rsvp-tui.rs). -/
structure Book where
  id : String
  title : String
  original_path : String
  total_words : Nat
  progress : Nat
  deriving DecidableEq

/-- Global settings of the persisted library (`struct Settings`): the
words-per-minute rate. -/
structure Settings where
  wpm : Nat
  deriving DecidableEq

/-- The persisted library root (`struct Library`): ordered book list,
optional last-opened id, settings. -/
structure Library where
  books : List Book
  last_book : Option String
  settings : Settings
  deriving DecidableEq

/-- The terminal application state (`struct App`), restricted to the
engine-relevant fields, together with the modelled persistent state
(`fs_library` = contents of library.json, `fs_books` = books directory). -/
structure App where
  library : Library
  words : List String
  word_index : Nat
  current_book_id : Option String
  current_book_title : String
  is_playing : Bool
  wpm : Nat
  last_advance : ℚ
  file_input_error : Option String
  status_message : Option (String × ℚ)
  fs_library : Library
  fs_books : List (String × String)

/-- Status and error strings used by the engine. -/
def msgNotFound : String := "Book file not found"

/-- Status string shown when a loaded book tokenizes to nothing. -/
def msgBookEmpty : String := "Book is empty"

/-- Status string shown when playback reaches the last token. -/
def msgFinished : String := "Finished reading!"

/-- Import error string for an empty or all-whitespace file. -/
def msgFileEmpty : String := "File is empty"

/-- Import error string for a failed file read (the code interpolates the
underlying io error; the model keeps a fixed marker). -/
def msgIoError : String := "Error: read failed"

/-- Status string shown when Space is pressed with no book loaded. -/
def msgNoBook : String := "No book loaded. Press i to import."

/-- Title fallback used when the loaded id has no library entry. -/
def titleUnknown : String := "Unknown"

/-- Worker for `tokenize_text`: splits a character list on runs of
whitespace, accumulating the current word in reverse.  This is the
semantics of Rust `str::split_whitespace` (no empty tokens, runs of
whitespace collapse). -/
def tokenizeAux : List Char → List Char → List (List Char)
  | [], acc => if acc.isEmpty then [] else [acc.reverse]
  | c :: cs, acc =>
    if c.isWhitespace then
      if acc.isEmpty then tokenizeAux cs [] else acc.reverse :: tokenizeAux cs []
    else
      tokenizeAux cs (c :: acc)

/-- `tokenize_text` (rsvp-tui.rs line 156, main.rs line 102): split raw text
on whitespace into the ordered list of display tokens. -/
def tokenize_text (s : String) : List String :=
  (tokenizeAux s.data []).map fun cs => String.mk cs

/-- `calculate_orp` (rsvp-tui.rs line 161, main.rs line 91): optimal
recognition point offset from the character count of the word.  The Rust
range match `0..=1 / 2..=5 / 6..=9 / 10..=13 / _` is rendered as the
equivalent chain of upper-bound tests. -/
def calculate_orp (word : String) : Nat :=
  let len := word.length
  if len ≤ 1 then 0
  else if len ≤ 5 then 1
  else if len ≤ 9 then 2
  else if len ≤ 13 then 3
  else 4

/-- Read one stored raw-text blob (`fs::read_to_string` of
`books/<id>.txt`); the books directory is an association list. -/
def lookupFile : List (String × String) → String → Option String
  | [], _ => none
  | (k, v) :: rest, i => if k = i then some v else lookupFile rest i

/-- Delete one stored raw-text blob (`fs::remove_file`); removing an absent
file is a no-op, matching the ignored io result in the code. -/
def eraseFile (fs : List (String × String)) (i : String) : List (String × String) :=
  fs.filter fun p => p.1 ≠ i

/-- Write one stored raw-text blob (`fs::write`), overwriting any previous
contents under the same id. -/
def writeFile (fs : List (String × String)) (i content : String) : List (String × String) :=
  (i, content) :: eraseFile fs i

/-- `self.library.books.iter().find(|b| b.id == book_id)`. -/
def findBook : List Book → String → Option Book
  | [], _ => none
  | b :: bs, i => if b.id = i then some b else findBook bs i

/-- The in-place progress update of `save_progress`
(`iter_mut().find(..)` followed by a field assignment): sets the progress of
the first book with the given id, a no-op when the id is absent. -/
def upsertProgress : List Book → String → Nat → List Book
  | [], _, _ => []
  | b :: bs, i, p =>
    if b.id = i then { b with progress := p } :: bs else b :: upsertProgress bs i p

/-- `App::show_status`: records a status message stamped with the current
instant. -/
def show_status (a : App) (now : ℚ) (msg : String) : App :=
  { a with status_message := some (msg, now) }

/-- `App::save_progress` (rsvp-tui.rs line 299): when a book is active,
write the cursor into its library entry and persist the whole library
(`save_library`); when no book is active, do nothing. -/
def save_progress (a : App) : App :=
  match a.current_book_id with
  | some i =>
    let lib := { a.library with books := upsertProgress a.library.books i a.word_index }
    { a with library := lib, fs_library := lib }
  | none => a

/-- `App::load_book` (rsvp-tui.rs lines 211-242).  Returns the updated
state and the success flag.  Note two faithful details: the token sequence
is assigned before the emptiness check, and an id that has raw text but no
library entry still loads (title falls back, cursor to 0). -/
def load_book (a : App) (now : ℚ) (book_id : String) : App × Bool :=
  match lookupFile a.fs_books book_id with
  | none => (show_status a now msgNotFound, false)
  | some content =>
    let ws := tokenize_text content
    if ws.isEmpty then
      (show_status { a with words := ws } now msgBookEmpty, false)
    else
      let a2 := { a with words := ws }
      let a3 :=
        match findBook a2.library.books book_id with
        | some book =>
          { a2 with current_book_title := book.title
                    word_index := min book.progress (ws.length - 1) }
        | none =>
          { a2 with current_book_title := titleUnknown, word_index := 0 }
      let lib := { a3.library with last_book := some book_id }
      ({ a3 with current_book_id := some book_id, library := lib, fs_library := lib }, true)

/-- Rust `Path::file_stem().and_then(to_str).unwrap_or("Unknown")` for
ordinary forward-slash paths: the base name without its final extension,
keeping hidden-file names whole. -/
def fileStem (path : String) : String :=
  let base := (path.data.reverse.takeWhile fun c => c ≠ '/').reverse
  match base with
  | [] => titleUnknown
  | _ =>
    let rev := base.reverse
    match rev.dropWhile fun c => c ≠ '.' with
    | [] => String.mk base
    | [_] => String.mk base
    | _ :: rest => String.mk rest.reverse

/-- `App::import_file` (rsvp-tui.rs lines 244-297).  `files` is the
external file system the import reads from; `freshId` stands for the
hash-of-path-and-time id generator.  Returns the updated state and the
success flag (the code returns `true` unconditionally after writing the
book, ignoring the result of the final `load_book`). -/
def import_file (a : App) (now : ℚ) (files : List (String × String))
    (path : String) (freshId : String) : App × Bool :=
  match lookupFile files path with
  | none => ({ a with file_input_error := some msgIoError }, false)
  | some content =>
    let ws := tokenize_text content
    if ws.isEmpty then
      ({ a with file_input_error := some msgFileEmpty }, false)
    else
      let a2 := { a with fs_books := writeFile a.fs_books freshId content }
      let title := fileStem path
      let book : Book :=
        { id := freshId, title := title, original_path := path
          total_words := ws.length, progress := 0 }
      let lib := { a2.library with books := a2.library.books ++ [book] }
      let a3 := { a2 with library := lib, fs_library := lib }
      let a4 := show_status a3 now ("Imported: " ++ title)
      ((load_book a4 now freshId).1, true)

/-- The `ConfirmAction::DeleteBook` branch of `handle_confirm_keys`
(rsvp-tui.rs lines 1077-1111): remove the book from the library, clear
`last_book` when it pointed at the removed id, persist, remove the raw-text
blob, and reset the session when the removed book was the active one. -/
def delete_book (a : App) (now : ℚ) (book_id : String) : App :=
  let is_current := a.current_book_id = some book_id
  let title :=
    match findBook a.library.books book_id with
    | some b => b.title
    | none => ""
  let lib0 := { a.library with books := a.library.books.filter fun b => b.id ≠ book_id }
  let lib := if lib0.last_book = some book_id then { lib0 with last_book := none } else lib0
  let a2 := { a with library := lib, fs_library := lib, fs_books := eraseFile a.fs_books book_id }
  let a3 :=
    if is_current then
      { a2 with words := [], current_book_id := none, current_book_title := ""
                word_index := 0, is_playing := false }
    else a2
  show_status a3 now ("Deleted: " ++ title)

/-- The Space branch of `handle_reading_keys` (rsvp-tui.rs lines 880-890):
toggle playback, restarting from 0 when the cursor sits at (or past) the
last token, and reset the advance timer. -/
def toggle_play (a : App) (now : ℚ) : App :=
  if a.words.isEmpty then
    show_status a now msgNoBook
  else if a.word_index ≥ a.words.length - 1 then
    { a with word_index := 0, is_playing := !a.is_playing, last_advance := now }
  else
    { a with is_playing := !a.is_playing, last_advance := now }

/-- The Left/h and `[`/b branches: stop playback and step the cursor back
by `n` (saturating at 0). -/
def seek_back (a : App) (n : Nat) : App :=
  { a with is_playing := false, word_index := a.word_index - n }

/-- The Right/l and `]`/w branches: stop playback and step the cursor
forward by `n`, clamped to the last token (no-op on an empty session). -/
def seek_fwd (a : App) (n : Nat) : App :=
  if a.words.isEmpty then
    { a with is_playing := false }
  else
    { a with is_playing := false
             word_index := min (a.word_index + n) (a.words.length - 1) }

/-- The Up/k branch of `handle_reading_keys` (rsvp-tui.rs lines 891-901):
raise the rate by 50 (100 with Shift), capped at 2000, write it into the
settings and persist. -/
def speed_up (a : App) (now : ℚ) (shift : Bool) : App :=
  let inc : Nat := if shift then 100 else 50
  let w := min (a.wpm + inc) 2000
  let lib := { a.library with settings := { wpm := w } }
  show_status { a with wpm := w, library := lib, fs_library := lib } now
    ("Speed: " ++ toString w ++ " WPM")

/-- The Down/j branch (rsvp-tui.rs lines 902-912): lower the rate by 50
(100 with Shift) with a floor of 50, write it into the settings and
persist. -/
def speed_down (a : App) (now : ℚ) (shift : Bool) : App :=
  let dec : Nat := if shift then 100 else 50
  let w := max (a.wpm - dec) 50
  let lib := { a.library with settings := { wpm := w } }
  show_status { a with wpm := w, library := lib, fs_library := lib } now
    ("Speed: " ++ toString w ++ " WPM")

/-- The inter-word delay in seconds computed by `tick`
(`Duration::from_secs_f64(60.0 / self.wpm as f64)`), exact in `ℚ`.  Rust
evaluates the quotient in `f64` where a zero rate yields an infinite
duration (and a panic in the duration constructor); in `ℚ` the degenerate
quotient collapses to 0, so a positive, meaningful delay exists exactly
when the rate is positive. -/
def delayQ (wpm : Nat) : ℚ := 60 / (wpm : ℚ)

/-- The status-message expiry at the top of `App::tick` (rsvp-tui.rs lines
310-314): a status older than three seconds is cleared. -/
def expire_status (a : App) (now : ℚ) : App :=
  match a.status_message with
  | some (_, t) => if now - t > 3 then { a with status_message := none } else a
  | none => a

/-- The word-advance portion of `App::tick` (rsvp-tui.rs lines 316-333;
identical to the `Message::Tick` handler of main.rs lines 188-205): while
playing on a non-empty session, once the elapsed time reaches the delay,
reset the timer and either advance one token (flushing progress on every
tenth token) or, at the last token, stop playback, surface the finished
notice and flush. -/
def tick_advance (a : App) (now : ℚ) : App :=
  if a.is_playing && !a.words.isEmpty then
    if delayQ a.wpm ≤ now - a.last_advance then
      if a.word_index < a.words.length - 1 then
        if (a.word_index + 1) % 10 = 0 then
          save_progress { a with word_index := a.word_index + 1, last_advance := now }
        else
          { a with word_index := a.word_index + 1, last_advance := now }
      else
        save_progress
          (show_status { a with last_advance := now, is_playing := false } now msgFinished)
    else a
  else a

/-- `App::tick` (rsvp-tui.rs lines 308-334): status expiry followed by the
word advance. -/
def tick (a : App) (now : ℚ) : App :=
  tick_advance (expire_status a now) now

/-- `App::new` (rsvp-tui.rs lines 177-199) applied to the result of
`load_library`: the rate is taken from the parsed settings unchecked. -/
def appNew (lib : Library) (fsBooks : List (String × String)) (now : ℚ) : App :=
  { library := lib, words := [], word_index := 0, current_book_id := none
    current_book_title := "", is_playing := false, wpm := lib.settings.wpm
    last_advance := now, file_input_error := none, status_message := none
    fs_library := lib, fs_books := fsBooks }

/-- The desktop front-end's start-up rate rule (main.rs line 156):
`if library.wpm > 0 { library.wpm } else { 300 }` — it guards a zero rate
but accepts any other out-of-range value unchanged. -/
def desktopInitWpm (libWpm : Nat) : Nat :=
  if libWpm > 0 then libWpm else 300

/-- The library invariant of the spec: `last_book`, when present, names an
existing book in the list. -/
def lastBookValid (lib : Library) : Prop :=
  ∀ i, lib.last_book = some i → ∃ b, b ∈ lib.books ∧ b.id = i

/-- The session operations of the cursor-range claim: seeks, play toggles
and clock ticks. -/
inductive Op where
  | seekBack : Nat → Op
  | seekFwd : Nat → Op
  | toggle : ℚ → Op
  | tick : ℚ → Op

/-- Dispatch one `Op` on the session. -/
def applyOp (a : App) : Op → App
  | .seekBack n => seek_back a n
  | .seekFwd n => seek_fwd a n
  | .toggle t => toggle_play a t
  | .tick t => tick a t

/-- Run a finite sequence of session operations. -/
def applyOps (a : App) (ops : List Op) : App :=
  ops.foldl applyOp a

/-! Concrete states used by witnesses and counterexamples. -/

/-- Raw text of the running example book. -/
def sampleText : String := "a b c"

/-- Token constants of the running example. -/
def strA : String := "a"

/-- Second token of the running example. -/
def strB : String := "b"

/-- Third token of the running example. -/
def strC : String := "c"

/-- Id of the running example book. -/
def idB1 : String := "b1"

/-- Id with stored raw text but no library entry. -/
def idX : String := "x"

/-- Id of a stored blob that tokenizes to nothing. -/
def idE : String := "e"

/-- Id stored nowhere. -/
def idZZ : String := "zz"

/-- Raw text behind `idX`. -/
def textHello : String := "hello world"

/-- Raw text behind `idE`. -/
def textBlank : String := " "

/-- Source path of the running example book. -/
def samplePath : String := "/tmp/s.txt"

/-- Title of the running example book. -/
def sampleTitle : String := "Sample"

/-- Library entry of the running example book. -/
def sampleBook : Book :=
  { id := idB1, title := sampleTitle, original_path := samplePath
    total_words := 3, progress := 0 }

/-- Library of the running example. -/
def sampleLib : Library :=
  { books := [sampleBook], last_book := some idB1, settings := { wpm := 300 } }

/-- A playing three-token session on the running example book. -/
def sampleApp : App :=
  { library := sampleLib, words := [strA, strB, strC], word_index := 0
    current_book_id := some idB1, current_book_title := sampleTitle
    is_playing := true, wpm := 300, last_advance := 0, file_input_error := none
    status_message := none, fs_library := sampleLib, fs_books := [(idB1, sampleText)] }

/-- An empty library whose books directory still holds raw text under
`idX`. -/
def appNoEntry : App :=
  { library := { books := [], last_book := none, settings := { wpm := 300 } }
    words := [], word_index := 0, current_book_id := none, current_book_title := ""
    is_playing := false, wpm := 300, last_advance := 0, file_input_error := none
    status_message := none
    fs_library := { books := [], last_book := none, settings := { wpm := 300 } }
    fs_books := [(idX, textHello)] }

/-- A session holding one token whose store offers only the all-whitespace
blob `idE`. -/
def appStale : App :=
  { appNoEntry with words := [strA], fs_books := [(idE, textBlank)] }

/-- A session whose persisted rate (4950) lies above the documented
range. -/
def fastApp : App := { sampleApp with wpm := 4950 }

/-- Five-character word for the orp table witness. -/
def wordFive : String := "hello"

/-- Fourteen-character word for the orp table witness. -/
def wordFourteen : String := "extraordinary!"

/-- Import path of the all-whitespace file. -/
def wsPath : String := "/tmp/blank.txt"

/-- Contents of the all-whitespace file. -/
def wsText : String := "  "

/-- External file system offering only the all-whitespace file. -/
def wsFiles : List (String × String) := [(wsPath, wsText)]

/-- Fresh id the import generator would hand out. -/
def freshIdW : String := "f1"

/-- Parsed library whose rate field is zero. -/
def zeroLib : Library := { books := [], last_book := none, settings := { wpm := 0 } }

/-! Tokenizer lemmas. -/

/-- Splitting a list of whitespace characters yields no tokens. -/
theorem tokenizeAux_all_whitespace (l : List Char) (h : ∀ c ∈ l, c.isWhitespace) :
    tokenizeAux l [] = [] := by
  induction l with
  | nil => rfl
  | cons c cs ih =>
    have hc : c.isWhitespace := h c (List.mem_cons_self c cs)
    have ih' := ih fun x hx => h x (List.mem_cons_of_mem c hx)
    simp [tokenizeAux, hc, ih']

/-- An empty or all-whitespace text tokenizes to the empty sequence. -/
theorem tokenize_text_all_whitespace (s : String) (h : ∀ c ∈ s.data, c.isWhitespace) :
    tokenize_text s = [] := by
  simp [tokenize_text, tokenizeAux_all_whitespace s.data h]

/-! Claim C7. -/

/-- C7: `calculate_orp` realises exactly the character-count table (0 for
lengths 0-1, 1 for 2-5, 2 for 6-9, 3 for 10-13, 4 from 14 up), is
monotone non-decreasing in the character count, bounded by 4, and never
exceeds the character count. -/
theorem calculate_orp_table (w v : String) :
    (w.length ≤ 1 → calculate_orp w = 0) ∧
    (2 ≤ w.length → w.length ≤ 5 → calculate_orp w = 1) ∧
    (6 ≤ w.length → w.length ≤ 9 → calculate_orp w = 2) ∧
    (10 ≤ w.length → w.length ≤ 13 → calculate_orp w = 3) ∧
    (14 ≤ w.length → calculate_orp w = 4) ∧
    (w.length ≤ v.length → calculate_orp w ≤ calculate_orp v) ∧
    calculate_orp w ≤ 4 ∧ calculate_orp w ≤ w.length := by
  simp only [calculate_orp]
  split_ifs <;> omega

/-- C7 witness: the table at the boundary lengths 5 and 14. -/
theorem calculate_orp_table_witness :
    (2 ≤ wordFive.length ∧ wordFive.length ≤ 5 ∧ calculate_orp wordFive = 1) ∧
    (14 ≤ wordFourteen.length ∧ calculate_orp wordFourteen = 4) :=
  ⟨⟨by decide, by decide,
      (calculate_orp_table wordFive wordFourteen).2.1 (by decide) (by decide)⟩,
    ⟨by decide, (calculate_orp_table wordFourteen wordFive).2.2.2.2.1 (by decide)⟩⟩

/-! Claim C6. -/

/-- C6: importing a path whose contents are empty or all-whitespace fails
with the empty-book error and mutates nothing: no book appended, no raw
text persisted, the persisted library, last-opened id, settings and the
in-memory session are all untouched. -/
theorem import_empty_rejected (a : App) (now : ℚ) (files : List (String × String))
    (path freshId content : String)
    (hread : lookupFile files path = some content)
    (hws : ∀ c ∈ content.data, c.isWhitespace) :
    (import_file a now files path freshId).2 = false ∧
    (import_file a now files path freshId).1.file_input_error = some msgFileEmpty ∧
    (import_file a now files path freshId).1.library = a.library ∧
    (import_file a now files path freshId).1.fs_library = a.fs_library ∧
    (import_file a now files path freshId).1.fs_books = a.fs_books ∧
    (import_file a now files path freshId).1.words = a.words ∧
    (import_file a now files path freshId).1.word_index = a.word_index := by
  have ht := tokenize_text_all_whitespace content hws
  simp [import_file, hread, ht]

/-- C6 witness: the concrete two-space file is rejected without touching
the library. -/
theorem import_empty_rejected_witness :
    lookupFile wsFiles wsPath = some wsText ∧
    (import_file sampleApp 0 wsFiles wsPath freshIdW).2 = false ∧
    (import_file sampleApp 0 wsFiles wsPath freshIdW).1.library = sampleApp.library :=
  ⟨by decide,
    (import_empty_rejected sampleApp 0 wsFiles wsPath freshIdW wsText (by decide) (by decide)).1,
    (import_empty_rejected sampleApp 0 wsFiles wsPath freshIdW wsText (by decide)
      (by decide)).2.2.1⟩

/-! Claim C5. -/

/-- C5: deleting the active book resets the session (tokens cleared,
cursor 0, playback stopped, no current book); deleting any other id —
including one the library never knew — leaves the session untouched, and
the operation always completes. -/
theorem delete_book_session (a : App) (now : ℚ) (book_id : String) :
    (a.current_book_id = some book_id →
      (delete_book a now book_id).words = [] ∧
      (delete_book a now book_id).word_index = 0 ∧
      (delete_book a now book_id).is_playing = false ∧
      (delete_book a now book_id).current_book_id = none) ∧
    (a.current_book_id ≠ some book_id →
      (delete_book a now book_id).words = a.words ∧
      (delete_book a now book_id).word_index = a.word_index ∧
      (delete_book a now book_id).is_playing = a.is_playing ∧
      (delete_book a now book_id).current_book_id = a.current_book_id) := by
  constructor
  · intro h; simp [delete_book, show_status, h]
  · intro h; simp [delete_book, show_status, h]

/-- C5 witness: deleting the active sample book clears the session;
deleting an unknown id leaves it alone. -/
theorem delete_book_session_witness :
    sampleApp.current_book_id = some idB1 ∧
    (delete_book sampleApp 0 idB1).words = [] ∧
    (delete_book sampleApp 0 idZZ).words = sampleApp.words :=
  ⟨by decide, ((delete_book_session sampleApp 0 idB1).1 (by decide)).1,
    ((delete_book_session sampleApp 0 idZZ).2 (by decide)).1⟩

/-! Claim C9. -/

/-- C9 fails as stated: from a persisted over-range rate (4950) a
lower-rate request yields 4900, outside the documented interval
[50, 2000] — each adjustment clamps only the boundary it moves toward. -/
theorem rate_clamp_counterexample :
    (speed_down fastApp 0 false).wpm = 4900 ∧ ¬(speed_down fastApp 0 false).wpm ≤ 2000 := by
  decide

/-- C9 amended: a speed-up request always lands in [50, 2000] (requests
past the maximum clamp to 2000); a speed-down request is always floored at
50 (requests past the minimum clamp to 50) and lands in [50, 2000]
whenever the current rate is at most 2000; either adjustment writes the
new rate into the settings and persists the library immediately. -/
theorem rate_adjust_spec (a : App) (now : ℚ) (shift : Bool) :
    (50 ≤ (speed_up a now shift).wpm ∧ (speed_up a now shift).wpm ≤ 2000 ∧
      (speed_up a now shift).library.settings.wpm = (speed_up a now shift).wpm ∧
      (speed_up a now shift).fs_library = (speed_up a now shift).library) ∧
    (50 ≤ (speed_down a now shift).wpm ∧
      (a.wpm ≤ 2000 → (speed_down a now shift).wpm ≤ 2000) ∧
      (speed_down a now shift).library.settings.wpm = (speed_down a now shift).wpm ∧
      (speed_down a now shift).fs_library = (speed_down a now shift).library) := by
  unfold speed_up speed_down show_status
  cases shift <;> simp <;> omega

/-- C9 amended witness: from the in-range sample rate both adjustments
stay in range. -/
theorem rate_adjust_spec_witness :
    sampleApp.wpm ≤ 2000 ∧ (speed_down sampleApp 0 false).wpm ≤ 2000 :=
  ⟨by decide, (rate_adjust_spec sampleApp 0 false).2.2.1 (by decide)⟩

/-! Claim C10. -/

/-- C10: the tick delay 60/wpm is a positive, meaningful duration exactly
when the rate is positive (at rate 0 the exact quotient degenerates — in
Rust it is an infinite f64 duration feeding the panicking duration
constructor); the terminal front-end adopts the parsed settings rate
unchecked, so a persisted out-of-range rate (0 included) reaches the
session as-is, while the desktop front-end guards only the zero case; the
first rate adjustment then pulls the rate back to at least 50. -/
theorem rate_unvalidated_on_load (lib : Library) (fsBooks : List (String × String))
    (t : ℚ) (w : Nat) :
    (appNew lib fsBooks t).wpm = lib.settings.wpm ∧
    (0 < w → 0 < delayQ w) ∧
    delayQ 0 = 0 ∧
    desktopInitWpm 0 = 300 ∧
    desktopInitWpm 4950 = 4950 ∧
    50 ≤ (speed_up (appNew lib fsBooks t) t false).wpm := by
  refine ⟨rfl, ?_, by norm_num [delayQ], by decide, by decide, ?_⟩
  · intro hw
    have hq : (0 : ℚ) < (w : ℚ) := by exact_mod_cast hw
    exact div_pos (by norm_num) hq
  · unfold speed_up show_status appNew
    simp

/-- C10 witness: a parsed zero rate reaches the terminal session as-is,
and a positive rate yields a positive delay. -/
theorem rate_unvalidated_on_load_witness :
    (appNew zeroLib [] 0).wpm = 0 ∧ 0 < delayQ 300 :=
  ⟨(rate_unvalidated_on_load zeroLib [] 0 300).1.trans (by decide),
    (rate_unvalidated_on_load zeroLib [] 0 300).2.1 (by decide)⟩

/-! Claim C1. -/

/-- C1 fails as stated on two counts, witnessed concretely: the id `idX`
has stored raw text but no library entry yet loads successfully (the
claim demands a NotFound failure), and the empty-book failure on `idE`
overwrites the one-token session with the empty tokenization (the claim
demands the tokens be left unchanged). -/
theorem load_failure_counterexample :
    (findBook appNoEntry.library.books idX = none ∧
      (load_book appNoEntry 0 idX).2 = true) ∧
    ((load_book appStale 0 idE).2 = false ∧ appStale.words = [strA] ∧
      (load_book appStale 0 idE).1.words = []) := by
  decide

/-- C1 amended: load fails as NotFound exactly when no raw text is stored
under the id — the session tokens, cursor and library are then untouched
— and as EmptyBook when the stored raw text tokenizes to nothing — the
cursor and library are then untouched but the token sequence has already
been overwritten with the empty tokenization; an id with raw text but no
library entry is not rejected. -/
theorem load_failure_spec (a : App) (now : ℚ) (book_id content : String) :
    (lookupFile a.fs_books book_id = none →
      (load_book a now book_id).2 = false ∧
      (load_book a now book_id).1.words = a.words ∧
      (load_book a now book_id).1.word_index = a.word_index ∧
      (load_book a now book_id).1.library = a.library ∧
      (load_book a now book_id).1.fs_library = a.fs_library) ∧
    (lookupFile a.fs_books book_id = some content → tokenize_text content = [] →
      (load_book a now book_id).2 = false ∧
      (load_book a now book_id).1.words = [] ∧
      (load_book a now book_id).1.word_index = a.word_index ∧
      (load_book a now book_id).1.library = a.library ∧
      (load_book a now book_id).1.fs_library = a.fs_library) ∧
    (lookupFile a.fs_books book_id = some content → tokenize_text content ≠ [] →
      (load_book a now book_id).2 = true) := by
  refine ⟨fun h => ?_, fun h ht => ?_, fun h ht => ?_⟩
  · simp [load_book, show_status, h]
  · simp [load_book, show_status, h, ht]
  · cases hf : findBook a.library.books book_id <;>
      simp [load_book, show_status, h, ht, hf]

/-- C1 amended witness: the missing id `idZZ` is rejected without touching
the session, and the all-whitespace blob `idE` is rejected with the cursor
untouched. -/
theorem load_failure_spec_witness :
    lookupFile sampleApp.fs_books idZZ = none ∧
    (load_book sampleApp 0 idZZ).2 = false ∧
    (load_book appStale 0 idE).1.word_index = appStale.word_index :=
  ⟨by decide, ((load_failure_spec sampleApp 0 idZZ strA).1 (by decide)).1,
    ((load_failure_spec appStale 0 idE textBlank).2.1 (by decide) (by decide)).2.2.1⟩

/-! Claim C4. -/

/-- C4 fails as stated: a successful load leaves the playing flag exactly
as it was instead of forcing the session to Paused — loading the sample
book while playing keeps the session playing. -/
theorem load_success_counterexample :
    sampleApp.is_playing = true ∧ (load_book sampleApp 0 idB1).2 = true ∧
    (load_book sampleApp 0 idB1).1.is_playing = true := by
  decide

/-- C4 amended: on every successful load the token sequence becomes the
tokenization of the stored raw text, the cursor is clamped to
min(stored progress, token count - 1) when the id has a library entry (and
0 when it has none), the loaded id becomes current, the last-opened id is
set to it and the library persisted; the playing flag is left unchanged
instead of being forced to Paused. -/
theorem load_success_spec (a : App) (now : ℚ) (book_id content : String)
    (hread : lookupFile a.fs_books book_id = some content)
    (hne : tokenize_text content ≠ []) :
    (load_book a now book_id).2 = true ∧
    (load_book a now book_id).1.words = tokenize_text content ∧
    (∀ b, findBook a.library.books book_id = some b →
      (load_book a now book_id).1.word_index =
        min b.progress ((tokenize_text content).length - 1)) ∧
    (findBook a.library.books book_id = none →
      (load_book a now book_id).1.word_index = 0) ∧
    (load_book a now book_id).1.is_playing = a.is_playing ∧
    (load_book a now book_id).1.current_book_id = some book_id ∧
    (load_book a now book_id).1.library.books = a.library.books ∧
    (load_book a now book_id).1.library.last_book = some book_id ∧
    (load_book a now book_id).1.fs_library = (load_book a now book_id).1.library := by
  cases hf : findBook a.library.books book_id <;>
    simp [load_book, show_status, hread, hne, hf]

/-- C4 amended witness: loading the sample book with stored progress 0
lands the cursor at 0, keeps the library entry list, and persists the
last-opened id. -/
theorem load_success_spec_witness :
    (load_book sampleApp 0 idB1).2 = true ∧
    (load_book sampleApp 0 idB1).1.library.last_book = some idB1 :=
  ⟨(load_success_spec sampleApp 0 idB1 sampleText (by decide) (by decide)).1,
    (load_success_spec sampleApp 0 idB1 sampleText (by decide)
      (by decide)).2.2.2.2.2.2.2.1⟩

/-! Claim C8: helper lemmas on the library shape of each operation. -/

/-- Updating one book's progress never loses a book id present in the
list. -/
theorem upsertProgress_mem_id (l : List Book) (i : String) (p : Nat) (j : String)
    (h : ∃ b, b ∈ l ∧ b.id = j) :
    ∃ b, b ∈ upsertProgress l i p ∧ b.id = j := by
  induction l with
  | nil => simp at h
  | cons b bs ih =>
    obtain ⟨c, hc, hcid⟩ := h
    by_cases hb : b.id = i
    · simp only [upsertProgress, if_pos hb]
      rcases List.mem_cons.mp hc with rfl | hmem
      · exact ⟨{ c with progress := p }, List.mem_cons_self _ _, hcid⟩
      · exact ⟨c, List.mem_cons_of_mem _ hmem, hcid⟩
    · simp only [upsertProgress, if_neg hb]
      rcases List.mem_cons.mp hc with rfl | hmem
      · exact ⟨c, List.mem_cons_self _ _, hcid⟩
      · obtain ⟨d, hd, hdid⟩ := ih ⟨c, hmem, hcid⟩
        exact ⟨d, List.mem_cons_of_mem _ hd, hdid⟩

/-- `save_progress` keeps the last-opened pointer and every book id. -/
theorem save_progress_library (a : App) :
    (save_progress a).library.last_book = a.library.last_book ∧
    ∀ j, (∃ b, b ∈ a.library.books ∧ b.id = j) →
      ∃ b, b ∈ (save_progress a).library.books ∧ b.id = j := by
  unfold save_progress
  split
  · exact ⟨rfl, fun j h => upsertProgress_mem_id _ _ _ _ h⟩
  · exact ⟨rfl, fun j h => h⟩

/-- The status expiry changes nothing but the status message. -/
theorem expire_status_fields (a : App) (now : ℚ) :
    (expire_status a now).library = a.library ∧
    (expire_status a now).words = a.words ∧
    (expire_status a now).word_index = a.word_index ∧
    (expire_status a now).current_book_id = a.current_book_id ∧
    (expire_status a now).is_playing = a.is_playing ∧
    (expire_status a now).wpm = a.wpm ∧
    (expire_status a now).last_advance = a.last_advance ∧
    (expire_status a now).fs_library = a.fs_library ∧
    (expire_status a now).fs_books = a.fs_books := by
  unfold expire_status
  split
  · split <;> simp
  · simp

/-- `tick` keeps the last-opened pointer, every book id, and the book
files. -/
theorem tick_library (a : App) (now : ℚ) :
    (tick a now).library.last_book = a.library.last_book ∧
    ∀ j, (∃ b, b ∈ a.library.books ∧ b.id = j) →
      ∃ b, b ∈ (tick a now).library.books ∧ b.id = j := by
  have he := expire_status_fields a now
  unfold tick tick_advance
  split_ifs with h1 h2 h3 h4
  · refine ⟨(save_progress_library _).1.trans (by rw [he.1]), fun j h => ?_⟩
    exact (save_progress_library _).2 j (by rw [he.1]; exact h)
  · exact ⟨by rw [he.1], fun j h => by rw [he.1]; exact h⟩
  · refine ⟨(save_progress_library _).1.trans (by rw [he.1]; rfl), fun j h => ?_⟩
    exact (save_progress_library _).2 j (by rw [he.1]; exact h)
  · exact ⟨he.1 ▸ rfl, fun j h => by rw [he.1]; exact h⟩
  · exact ⟨he.1 ▸ rfl, fun j h => by rw [he.1]; exact h⟩

/-- The library left by `delete_book`: the removed id filtered out of the
book list, the last-opened pointer cleared when it named the removed id,
the settings untouched. -/
theorem delete_book_library (a : App) (now : ℚ) (book_id : String) :
    (delete_book a now book_id).library =
      { books := a.library.books.filter fun b => b.id ≠ book_id
        last_book := if a.library.last_book = some book_id then none else a.library.last_book
        settings := a.library.settings } := by
  unfold delete_book show_status
  by_cases h1 : a.library.last_book = some book_id <;>
    by_cases h2 : a.current_book_id = some book_id <;>
      simp [h1, h2]

/-- Seeks and play toggles never touch the library. -/
theorem seek_toggle_library (a : App) (n : Nat) (t : ℚ) :
    (seek_back a n).library = a.library ∧
    (seek_fwd a n).library = a.library ∧
    (toggle_play a t).library = a.library := by
  refine ⟨rfl, ?_, ?_⟩
  · unfold seek_fwd; split <;> rfl
  · unfold toggle_play show_status; split_ifs <;> rfl

/-- Every seek/toggle/tick preserves the last-opened invariant. -/
theorem applyOp_lastBookValid (a : App) (op : Op) (h : lastBookValid a.library) :
    lastBookValid (applyOp a op).library := by
  cases op with
  | seekBack n => exact (seek_toggle_library a n 0).1 ▸ h
  | seekFwd n => exact (seek_toggle_library a n 0).2.1 ▸ h
  | toggle t => exact (seek_toggle_library a 0 t).2.2 ▸ h
  | tick t =>
    intro i hi
    have ht := tick_library a t
    exact ht.2 i (h i (ht.1 ▸ hi))

/-- C8 fails as stated: loading the entry-less id `idX`, whose raw text
exists, sets the last-opened pointer to an id no book in the list
carries — the invariant held before the load and is broken after it. -/
theorem last_book_invariant_counterexample :
    lastBookValid appNoEntry.library ∧
    ¬ lastBookValid (load_book appNoEntry 0 idX).1.library := by
  constructor
  · intro i hi
    simp [appNoEntry] at hi
  · intro h
    obtain ⟨b, hb, -⟩ := h idX (by decide)
    have hbooks : (load_book appNoEntry 0 idX).1.library.books = [] := by decide
    rw [hbooks] at hb
    exact absurd hb (List.not_mem_nil b)

/-- C8 amended: the last-opened invariant is preserved by delete (which
clears the pointer when the removed id matches it), by load whenever the
loaded id has a library entry, and by every seek/toggle/tick sequence;
load of an entry-less id whose raw text exists is the one operation that
can break it. -/
theorem last_book_invariant_spec (a : App) (now : ℚ) (book_id : String) (ops : List Op) :
    (lastBookValid a.library → lastBookValid (delete_book a now book_id).library) ∧
    (lastBookValid a.library → (∃ b, b ∈ a.library.books ∧ b.id = book_id) →
      lastBookValid (load_book a now book_id).1.library) ∧
    (lastBookValid a.library → lastBookValid (applyOps a ops).library) := by
  refine ⟨fun h => ?_, fun h hex => ?_, fun h => ?_⟩
  · intro i hi
    rw [delete_book_library] at hi
    by_cases hl : a.library.last_book = some book_id
    · simp [hl] at hi
    · simp only [if_neg hl] at hi
      obtain ⟨b, hb, hbid⟩ := h i hi
      have hne : i ≠ book_id := by
        intro hcontra
        exact hl (hcontra ▸ hi)
      refine ⟨b, ?_, hbid⟩
      rw [delete_book_library]
      simp only [List.mem_filter]
      exact ⟨hb, by simp [hbid, hne]⟩
  · cases hr : lookupFile a.fs_books book_id with
    | none =>
      intro i hi
      simp only [load_book, hr, show_status] at hi ⊢
      exact h i hi
    | some content =>
      by_cases ht : tokenize_text content = []
      · intro i hi
        simp only [load_book, hr, ht, show_status, List.isEmpty_nil, if_true] at hi ⊢
        exact h i hi
      · intro i hi
        cases hf : findBook a.library.books book_id <;>
          · simp only [load_book, hr, show_status, hf] at hi ⊢
            rw [if_neg (by simp [ht])] at hi
            rw [if_neg (by simp [ht])]
            simp at hi ⊢
            exact hi ▸ hex
  · induction ops generalizing a with
    | nil => exact h
    | cons op rest ih =>
      exact ih (applyOp a op) (applyOp_lastBookValid a op h)

/-! Claims C2 and C3: session-side helper lemmas. -/

/-- `save_progress` touches only the library and its persisted copy. -/
theorem save_progress_session (a : App) :
    (save_progress a).words = a.words ∧
    (save_progress a).word_index = a.word_index ∧
    (save_progress a).is_playing = a.is_playing ∧
    (save_progress a).last_advance = a.last_advance ∧
    (save_progress a).wpm = a.wpm ∧
    (save_progress a).current_book_id = a.current_book_id ∧
    (save_progress a).status_message = a.status_message ∧
    (save_progress a).fs_books = a.fs_books := by
  unfold save_progress
  split <;> simp

/-- A true playing-and-nonempty condition yields a non-empty token list. -/
theorem playCond_words (a : App) (hb : (a.is_playing && !a.words.isEmpty) = true) :
    a.words ≠ [] := by
  simp only [Bool.and_eq_true, Bool.not_eq_true'] at hb
  intro h
  rw [h] at hb
  simp at hb

/-- While not playing the advance step is the identity. -/
theorem tick_advance_not_playing (a : App) (now : ℚ) (h : a.is_playing = false) :
    tick_advance a now = a := by
  simp [tick_advance, h]

/-- Before the delay has elapsed the advance step is the identity. -/
theorem tick_advance_early (a : App) (now : ℚ)
    (h : now - a.last_advance < delayQ a.wpm) :
    tick_advance a now = a := by
  have hd : ¬ delayQ a.wpm ≤ now - a.last_advance := not_le.mpr h
  simp [tick_advance, hd]

/-- The advance branch of the step, taken before the last token. -/
theorem tick_advance_step (a : App) (now : ℚ) (hp : a.is_playing = true)
    (hne : a.words ≠ []) (hd : delayQ a.wpm ≤ now - a.last_advance)
    (hlt : a.word_index + 1 < a.words.length) :
    tick_advance a now =
      if (a.word_index + 1) % 10 = 0 then
        save_progress { a with word_index := a.word_index + 1, last_advance := now }
      else
        { a with word_index := a.word_index + 1, last_advance := now } := by
  have hcond : a.word_index < a.words.length - 1 := by omega
  simp [tick_advance, hp, hne, hd, hcond]

/-- The finish branch of the step, taken at the last token. -/
theorem tick_advance_finish (a : App) (now : ℚ) (hp : a.is_playing = true)
    (hne : a.words ≠ []) (hd : delayQ a.wpm ≤ now - a.last_advance)
    (hge : a.words.length - 1 ≤ a.word_index) :
    tick_advance a now =
      save_progress
        (show_status { a with last_advance := now, is_playing := false } now msgFinished) := by
  have hcond : ¬ a.word_index < a.words.length - 1 := by omega
  simp [tick_advance, hp, hne, hd, hcond]

/-- The advance step leaves the token list alone and moves the cursor at
most one step forward, staying below the length. -/
theorem tick_advance_session (a : App) (now : ℚ) :
    (tick_advance a now).words = a.words ∧
    ((tick_advance a now).word_index = a.word_index ∨
      ((tick_advance a now).word_index = a.word_index + 1 ∧
        a.word_index + 1 < a.words.length)) := by
  unfold tick_advance
  split_ifs with hb hd hlt hmod
  · have hlen := List.length_pos.mpr (playCond_words a hb)
    exact ⟨(save_progress_session _).1,
      Or.inr ⟨(save_progress_session _).2.1, by omega⟩⟩
  · have hlen := List.length_pos.mpr (playCond_words a hb)
    exact ⟨rfl, Or.inr ⟨rfl, by omega⟩⟩
  · exact ⟨(save_progress_session _).1, Or.inl (save_progress_session _).2.1⟩
  · exact ⟨rfl, Or.inl rfl⟩
  · exact ⟨rfl, Or.inl rfl⟩

/-- `tick` leaves the token list alone and moves the cursor at most one
step forward, staying below the length. -/
theorem tick_session (a : App) (now : ℚ) :
    (tick a now).words = a.words ∧
    ((tick a now).word_index = a.word_index ∨
      ((tick a now).word_index = a.word_index + 1 ∧
        a.word_index + 1 < a.words.length)) := by
  have he := expire_status_fields a now
  have ht := tick_advance_session (expire_status a now) now
  rw [he.2.1, he.2.2.1] at ht
  exact ht

/-- Session fields across one operation: the token list is untouched and
the cursor stays inside the valid range. -/
theorem applyOp_session (a : App) (op : Op) (h0 : a.words ≠ [])
    (h1 : a.word_index < a.words.length) :
    (applyOp a op).words = a.words ∧ (applyOp a op).word_index < a.words.length := by
  have hlen : 0 < a.words.length := List.length_pos.mpr h0
  cases op with
  | seekBack n =>
    refine ⟨rfl, ?_⟩
    show a.word_index - n < a.words.length
    omega
  | seekFwd n =>
    simp only [applyOp, seek_fwd]
    split_ifs with h
    · exact ⟨rfl, h1⟩
    · refine ⟨rfl, ?_⟩
      show min (a.word_index + n) (a.words.length - 1) < a.words.length
      omega
  | toggle t =>
    simp only [applyOp, toggle_play, show_status]
    split_ifs with h h2
    · exact ⟨rfl, h1⟩
    · exact ⟨rfl, hlen⟩
    · exact ⟨rfl, h1⟩
  | tick t =>
    obtain ⟨hw, hi⟩ := tick_session a t
    refine ⟨hw, ?_⟩
    show (tick a t).word_index < a.words.length
    rcases hi with h | ⟨h, hb⟩
    · rw [h]; exact h1
    · rw [h]; exact hb

/-! Claim C2. -/

/-- C2: for a session holding at least one token, every finite sequence of
seek, toggle and tick operations keeps the cursor inside
[0, total_words - 1]; the token sequence itself is untouched by these
operations, so the bound refers to the same total. -/
theorem cursor_in_range (a : App) (ops : List Op)
    (h0 : 0 < a.words.length) (h1 : a.word_index < a.words.length) :
    (applyOps a ops).words = a.words ∧
    (applyOps a ops).word_index < (applyOps a ops).words.length := by
  suffices h : (applyOps a ops).words = a.words ∧
      (applyOps a ops).word_index < a.words.length by
    exact ⟨h.1, by rw [h.1]; exact h.2⟩
  induction ops generalizing a with
  | nil => exact ⟨rfl, h1⟩
  | cons op rest ih =>
    have hne : a.words ≠ [] := List.length_pos.mp h0
    have hstep := applyOp_session a op hne h1
    have hrest := ih (applyOp a op) (by rw [hstep.1]; exact h0)
      (by rw [hstep.1]; exact hstep.2)
    refine ⟨hrest.1.trans hstep.1, ?_⟩
    rw [← hstep.1]
    exact hrest.2

/-- C2 witness: a three-operation run on the sample session stays in
range. -/
theorem cursor_in_range_witness :
    0 < sampleApp.words.length ∧
    (applyOps sampleApp [Op.seekFwd 10, Op.toggle 1, Op.tick 2]).word_index <
      (applyOps sampleApp [Op.seekFwd 10, Op.toggle 1, Op.tick 2]).words.length :=
  ⟨by decide,
    (cursor_in_range sampleApp [Op.seekFwd 10, Op.toggle 1, Op.tick 2]
      (by decide) (by decide)).2⟩

/-! Claim C3. -/

/-- The tick contract stated on the bare advance step (same shape as the
claim theorem below, which transports it across the status expiry). -/
theorem tick_advance_spec (a : App) (now : ℚ) :
    (a.is_playing = false →
      (tick_advance a now).words = a.words ∧
      (tick_advance a now).word_index = a.word_index ∧
      (tick_advance a now).is_playing = false ∧
      (tick_advance a now).last_advance = a.last_advance ∧
      (tick_advance a now).wpm = a.wpm ∧
      (tick_advance a now).library = a.library ∧
      (tick_advance a now).fs_library = a.fs_library ∧
      (tick_advance a now).fs_books = a.fs_books ∧
      (tick_advance a now).current_book_id = a.current_book_id) ∧
    (now - a.last_advance < delayQ a.wpm →
      (tick_advance a now).words = a.words ∧
      (tick_advance a now).word_index = a.word_index ∧
      (tick_advance a now).is_playing = a.is_playing ∧
      (tick_advance a now).last_advance = a.last_advance ∧
      (tick_advance a now).library = a.library ∧
      (tick_advance a now).fs_library = a.fs_library) ∧
    (a.is_playing = true → a.words ≠ [] → delayQ a.wpm ≤ now - a.last_advance →
      a.word_index + 1 < a.words.length →
      (tick_advance a now).words = a.words ∧
      (tick_advance a now).word_index = a.word_index + 1 ∧
      (tick_advance a now).last_advance = now ∧
      (tick_advance a now).is_playing = true ∧
      ((a.word_index + 1) % 10 ≠ 0 →
        (tick_advance a now).library = a.library ∧
        (tick_advance a now).fs_library = a.fs_library) ∧
      ((a.word_index + 1) % 10 = 0 → a.current_book_id = none →
        (tick_advance a now).library = a.library ∧
        (tick_advance a now).fs_library = a.fs_library) ∧
      (∀ i, (a.word_index + 1) % 10 = 0 → a.current_book_id = some i →
        (tick_advance a now).library.books =
          upsertProgress a.library.books i (a.word_index + 1) ∧
        (tick_advance a now).library.last_book = a.library.last_book ∧
        (tick_advance a now).fs_library = (tick_advance a now).library)) ∧
    (a.is_playing = true → a.words ≠ [] → delayQ a.wpm ≤ now - a.last_advance →
      a.word_index = a.words.length - 1 →
      (tick_advance a now).words = a.words ∧
      (tick_advance a now).word_index = a.word_index ∧
      (tick_advance a now).last_advance = now ∧
      (tick_advance a now).is_playing = false ∧
      (tick_advance a now).status_message = some (msgFinished, now) ∧
      (a.current_book_id = none →
        (tick_advance a now).library = a.library ∧
        (tick_advance a now).fs_library = a.fs_library) ∧
      (∀ i, a.current_book_id = some i →
        (tick_advance a now).library.books =
          upsertProgress a.library.books i a.word_index ∧
        (tick_advance a now).library.last_book = a.library.last_book ∧
        (tick_advance a now).fs_library = (tick_advance a now).library)) := by
  refine ⟨fun h => ?_, fun h => ?_, fun hp hne hd hlt => ?_, fun hp hne hd hidx => ?_⟩
  · rw [tick_advance_not_playing a now h]
    exact ⟨rfl, rfl, h, rfl, rfl, rfl, rfl, rfl, rfl⟩
  · rw [tick_advance_early a now h]
    exact ⟨rfl, rfl, rfl, rfl, rfl, rfl⟩
  · rw [tick_advance_step a now hp hne hd hlt]
    by_cases hmod : (a.word_index + 1) % 10 = 0
    · rw [if_pos hmod]
      refine ⟨(save_progress_session _).1, (save_progress_session _).2.1,
        (save_progress_session _).2.2.2.1, (save_progress_session _).2.2.1.trans hp,
        fun hmm => absurd hmod hmm, fun _ hc => ?_, fun i _ hc => ?_⟩
      · simp [save_progress, hc]
      · refine ⟨?_, ?_, ?_⟩ <;> simp [save_progress, hc]
    · rw [if_neg hmod]
      exact ⟨rfl, rfl, rfl, hp, fun _ => ⟨rfl, rfl⟩,
        fun hmm _ => absurd hmm hmod, fun i hmm _ => absurd hmm hmod⟩
  · have hge : a.words.length - 1 ≤ a.word_index := by omega
    rw [tick_advance_finish a now hp hne hd hge]
    refine ⟨(save_progress_session _).1, (save_progress_session _).2.1,
      (save_progress_session _).2.2.2.1, (save_progress_session _).2.2.1,
      (save_progress_session _).2.2.2.2.2.2.1, fun hc => ?_, fun i hc => ?_⟩
    · simp [save_progress, show_status, hc]
    · refine ⟨?_, ?_, ?_⟩ <;> simp [save_progress, show_status, hc]

/-- C3: `tick` leaves the session untouched while paused and before the
delay 60/wpm has elapsed; once the elapsed time reaches the delay it
resets the timer reference and advances the cursor by exactly one token,
flushing progress into the library store (and persisting it) exactly when
the new index is a multiple of ten; when the cursor already sits at the
last token it instead keeps the cursor, stops playback, surfaces the
finished notice and flushes progress.  The status-message expiry at the
top of the terminal tick touches only the transient notice line, never
the session. -/
theorem tick_spec (a : App) (now : ℚ) :
    (a.is_playing = false →
      (tick a now).words = a.words ∧
      (tick a now).word_index = a.word_index ∧
      (tick a now).is_playing = false ∧
      (tick a now).last_advance = a.last_advance ∧
      (tick a now).wpm = a.wpm ∧
      (tick a now).library = a.library ∧
      (tick a now).fs_library = a.fs_library ∧
      (tick a now).fs_books = a.fs_books ∧
      (tick a now).current_book_id = a.current_book_id) ∧
    (now - a.last_advance < delayQ a.wpm →
      (tick a now).words = a.words ∧
      (tick a now).word_index = a.word_index ∧
      (tick a now).is_playing = a.is_playing ∧
      (tick a now).last_advance = a.last_advance ∧
      (tick a now).library = a.library ∧
      (tick a now).fs_library = a.fs_library) ∧
    (a.is_playing = true → a.words ≠ [] → delayQ a.wpm ≤ now - a.last_advance →
      a.word_index + 1 < a.words.length →
      (tick a now).words = a.words ∧
      (tick a now).word_index = a.word_index + 1 ∧
      (tick a now).last_advance = now ∧
      (tick a now).is_playing = true ∧
      ((a.word_index + 1) % 10 ≠ 0 →
        (tick a now).library = a.library ∧
        (tick a now).fs_library = a.fs_library) ∧
      ((a.word_index + 1) % 10 = 0 → a.current_book_id = none →
        (tick a now).library = a.library ∧
        (tick a now).fs_library = a.fs_library) ∧
      (∀ i, (a.word_index + 1) % 10 = 0 → a.current_book_id = some i →
        (tick a now).library.books =
          upsertProgress a.library.books i (a.word_index + 1) ∧
        (tick a now).library.last_book = a.library.last_book ∧
        (tick a now).fs_library = (tick a now).library)) ∧
    (a.is_playing = true → a.words ≠ [] → delayQ a.wpm ≤ now - a.last_advance →
      a.word_index = a.words.length - 1 →
      (tick a now).words = a.words ∧
      (tick a now).word_index = a.word_index ∧
      (tick a now).last_advance = now ∧
      (tick a now).is_playing = false ∧
      (tick a now).status_message = some (msgFinished, now) ∧
      (a.current_book_id = none →
        (tick a now).library = a.library ∧
        (tick a now).fs_library = a.fs_library) ∧
      (∀ i, a.current_book_id = some i →
        (tick a now).library.books =
          upsertProgress a.library.books i a.word_index ∧
        (tick a now).library.last_book = a.library.last_book ∧
        (tick a now).fs_library = (tick a now).library)) := by
  obtain ⟨heL, heW, heI, heC, heP, heM, heA, heF, heB⟩ := expire_status_fields a now
  have ht := tick_advance_spec (expire_status a now) now
  rw [heL, heW, heI, heC, heP, heM, heA, heF, heB] at ht
  exact ht

/-- C3 witness: one tick of the playing sample session past the 0.2 s
delay advances the cursor from 0 to 1. -/
theorem tick_spec_witness :
    sampleApp.is_playing = true ∧
    (tick sampleApp 1).word_index = sampleApp.word_index + 1 :=
  ⟨by decide,
    ((tick_spec sampleApp 1).2.2.1 (by decide) (by decide)
      (by norm_num [sampleApp, delayQ]) (by decide)).2.1⟩

/-- The sample library satisfies the last-opened invariant. -/
theorem sampleLib_valid : lastBookValid sampleLib := by
  intro i hi
  simp [sampleLib] at hi
  exact ⟨sampleBook, by simp [sampleLib], by simp [sampleBook, hi]⟩

/-- C8 amended witness: deleting the sample book (which is the last-opened
one) keeps the invariant, as does a seek/toggle/tick run. -/
theorem last_book_invariant_spec_witness :
    lastBookValid (delete_book sampleApp 0 idB1).library ∧
    lastBookValid (applyOps sampleApp [Op.seekFwd 1, Op.toggle 1, Op.tick 2]).library :=
  ⟨(last_book_invariant_spec sampleApp 0 idB1 []).1 sampleLib_valid,
    (last_book_invariant_spec sampleApp 0 idB1
      [Op.seekFwd 1, Op.toggle 1, Op.tick 2]).2.2 sampleLib_valid⟩

end Rsvp
